import Mathlib

/-!
Shallow embedding of the diagnostics subsystem of the recipe2txt repository:
the context-propagating log pipeline (`recipe2txt/utils/ContextLogger.py`) and
the error-aggregation / report-generation engine (`recipe2txt/html2recipe.py`),
together with proofs of the behavioural properties claimed for them.
-/

namespace Recipe2txt

/-- Severity levels of the Python `logging` module. -/
def DEBUG : Nat := 10

/-- Severity level `logging.INFO`. -/
def INFO : Nat := 20

/-- Severity level `logging.WARNING`. -/
def WARNING : Nat := 30

/-- Severity level `logging.ERROR`. -/
def ERROR : Nat := 40

/-- Platform line separator (`os.linesep` on the POSIX systems the tool targets). -/
def linesep : String := "\n"

/-- Sentinel message used purely to force a context close (`DO_NOT_LOG`). -/
def DO_NOT_LOG : String := "THIS MESSAGE SHOULD NOT BE LOGGED"

/-- One `logging.LogRecord` together with the dynamic attributes the pipeline reads
or writes (`is_context` for `CTX_ATTR`, `defer_emit` for `DEFER_EMIT`, `context_msg`
for `CTX_MSG_ATTR`, `context_args` for `CTX_ARGS_ATTR`, `with_context` for
`WITH_CTX_ATTR`, `full_trace` for `FULL_TRACE_ATTR`); an absent attribute is `none`
resp. the default that the corresponding `getattr(record, ..., default)` supplies. -/
structure LogRecord where
  levelno : Nat
  msg : String
  args : List String := []
  exc_info : Bool := false
  is_context : Option Bool := none
  defer_emit : Bool := false
  context_msg : Option String := none
  context_args : Option (List String) := none
  with_context : Bool := false
  full_trace : Option Bool := none
deriving DecidableEq

/-- Per-task context state (class `Context` of `ContextLogger.py`). -/
structure Context where
  context_msg : String := ""
  context_args : List String := []
  with_context : Bool := false
  triggered : Bool := false
  context_id : Nat := 0
  defer_emit : Bool := false
  deferred_records : List LogRecord := []
deriving DecidableEq

/-- A freshly constructed `Context` (`Context.__init__`). -/
def Context.init : Context := {}

/-- Clears all state (`Context.reset`); every field returns to its initial value. -/
def Context.reset (_self : Context) : Context := {}

/-- Embeds `Context.dispatch`: tags records carrying an exception with `full_trace`,
then either appends the record to the deferred queue (returning `false`: do not emit
now) or lets it pass (returning `true`). Result: (new state, tagged record, emit?). -/
def Context.dispatch (self : Context) (record : LogRecord) (log_level : Nat) :
    Context × LogRecord × Bool :=
  let record :=
    if record.exc_info then { record with full_trace := some (decide (log_level ≤ DEBUG)) }
    else record
  if self.defer_emit then
    ({ self with deferred_records := self.deferred_records ++ [record] }, record, false)
  else
    (self, record, true)

/-- Embeds `Context.set_context`, the handling of a context-opening record. -/
def Context.set_context (self : Context) (record : LogRecord) (log_level : Nat) :
    Context × LogRecord × Bool :=
  let self := { self with defer_emit := record.defer_emit, with_context := true }
  if log_level ≤ record.levelno then
    let self := { self with triggered := true }
    self.dispatch record log_level
  else
    ({ self with with_context := true, context_msg := record.msg,
                 context_args := record.args, triggered := false },
     record, false)

/-- Embeds `Context.close_context`. `handler` states whether the module-level
`_stream_handler` is configured; the returned list holds the deferred records that
are emitted to that stream handler directly (in queue order). The state is reset
unconditionally. -/
def Context.close_context (self : Context) (handler : Bool) : Context × List LogRecord :=
  let flushed :=
    if self.with_context ∧ self.deferred_records ≠ [] then
      if handler then self.deferred_records else []
    else []
  (self.reset, flushed)

/-- Embeds the tail of `Context.process` shared by the close branch and the
no-context-attribute fall-through: the `DO_NOT_LOG` drop, the threshold test, the
annotation of the record with the open context's message for an untriggered
context, and the final `dispatch`. -/
def Context.processRest (self : Context) (flushed : List LogRecord)
    (record : LogRecord) (log_level : Nat) :
    Context × LogRecord × Bool × List LogRecord :=
  if record.msg = DO_NOT_LOG then
    (self, record, false, flushed)
  else if log_level ≤ record.levelno then
    let record :=
      if self.with_context then
        let record :=
          if !self.triggered then
            { record with context_msg := some self.context_msg,
                          context_args := some self.context_args }
          else record
        { record with with_context := true }
      else record
    let s := self.dispatch record log_level
    (s.1, s.2.1, s.2.2, flushed)
  else
    (self, record, false, flushed)

/-- Embeds `Context.process`, the entry point called by the dispatch filter for every
record. Result: (new state, annotated record, emit decision handed back to the
filter, records flushed directly to the stream handler by an embedded close). -/
def Context.process (self : Context) (record : LogRecord) (log_level : Nat)
    (handler : Bool) : Context × LogRecord × Bool × List LogRecord :=
  match record.is_context with
  | some true =>
      let s := self.set_context record log_level
      (s.1, s.2.1, s.2.2, [])
  | some false =>
      let closed := self.close_context handler
      closed.1.processRest closed.2 record log_level
  | none =>
      self.processRest [] record log_level

/-- Folds `Context.process` over a list of records, collecting for each record the
annotated record, the emit decision and the directly flushed records. -/
def Context.processList (self : Context) (records : List LogRecord) (log_level : Nat)
    (handler : Bool) : Context × List (LogRecord × Bool × List LogRecord) :=
  match records with
  | [] => (self, [])
  | r :: rs =>
      let s := self.process r log_level handler
      let t := s.1.processList rs log_level handler
      (t.1, (s.2.1, s.2.2) :: t.2)

/-- Everything a sequence of processing steps sends to the stream sink: the records
flushed directly by an embedded close, plus each record whose emit decision was
positive, in order. -/
def sinkOutput (steps : List (LogRecord × Bool × List LogRecord)) : List LogRecord :=
  (steps.map fun s => s.2.2 ++ if s.2.1 then [s.1] else []).flatten

/-- Annotation that `Context.process` applies to a qualifying record observed in
state `c`: the open context's message and args are attached while the context is
untriggered, the record is tagged as in-context, and `dispatch` adds the
`full_trace` tag for records carrying an exception. -/
def annotateFor (c : Context) (lvl : Nat) (r : LogRecord) : LogRecord :=
  let r :=
    if c.with_context then
      let r :=
        if !c.triggered then
          { r with context_msg := some c.context_msg,
                   context_args := some c.context_args }
        else r
      { r with with_context := true }
    else r
  if r.exc_info then { r with full_trace := some (decide (lvl ≤ DEBUG)) } else r

/-- The records a deferred context queues when the record list `rs` is processed in
state `c`: the records meeting the threshold, annotated, in original order. -/
def deferredOf (c : Context) (lvl : Nat) (rs : List LogRecord) : List LogRecord :=
  rs.filterMap fun r =>
    if r.msg = DO_NOT_LOG then none
    else if lvl ≤ r.levelno then some (annotateFor c lvl r) else none

/-- The composed-context template `WHILE` (`f"While %s:{linesep}\t"`). -/
def WHILE : String := "While %s:" ++ linesep ++ "\t"

/-- Models Python `%`-formatting restricted to the `%s` conversions the logger
uses: each `%s` is replaced, left to right, by the next argument; substituted
text is not rescanned. -/
def pctSubst : List Char → List String → List Char
  | [], _ => []
  | '%' :: 's' :: rest, a :: args => a.data ++ pctSubst rest args
  | ch :: rest, args => ch :: pctSubst rest args

/-- Models `msg[0].lower() + msg[1:]`: lower-cases the first character, and is
undefined (Python raises `IndexError`) on the empty string. -/
def lowerFirst (s : String) : Option String :=
  match s.data with
  | [] => none
  | ch :: rest => some (String.mk (ch.toLower :: rest))

/-- Embeds `format_context`: lower-cases the first character of the context
message (partial on the empty message), splices it into `WHILE`, then applies the
context arguments. -/
def format_context (msg : String) (args : List String) : Option String :=
  match lowerFirst msg with
  | none => none
  | some m =>
      let w := String.mk (pctSubst WHILE.data [m])
      some (String.mk (pctSubst w.data args))

/-- Embeds the renderer-side `set_context`: computes the `ctx` field the stream
formatter prepends to the message — empty outside a context, the composed
"While ...:" prefix for a record annotated with a non-empty context message, and
a single tab otherwise. -/
def set_context (record : LogRecord) : Option String :=
  if record.with_context then
    match record.context_msg with
    | some m =>
        if m = "" then some "\t"
        else format_context m (record.context_args.getD [])
    | none => some "\t"
  else some ""

/-- The fallback task identity used when no asyncio task is active. -/
def DEFAULT_CONTEXT : String := "default_context"

/-- Embeds `QueueContextFilter`: the dispatch filter's severity threshold and the
insertion-ordered task-name → `Context` registry. -/
structure QueueContextFilter where
  log_level : Nat
  tasklocal_context : List (String × Context)
deriving DecidableEq

/-- Embeds `QueueContextFilter.__init__`. -/
def QueueContextFilter.mkFilter (log_level : Nat) : QueueContextFilter :=
  { log_level := log_level, tasklocal_context := [(DEFAULT_CONTEXT, Context.init)] }

/-- Association-list lookup mirroring `dict.get` on the task registry. -/
def lookupContext : List (String × Context) → String → Option Context
  | [], _ => none
  | (k, v) :: rest, key => if k = key then some v else lookupContext rest key

/-- Embeds `QueueContextFilter.get_context`; `task_name` is the name of the
currently scheduled asyncio task (or `DEFAULT_CONTEXT` when none is active).
When the task has no `Context` yet, a fresh one is created and registered. -/
def QueueContextFilter.get_context (self : QueueContextFilter) (task_name : String) :
    QueueContextFilter × Context :=
  match lookupContext self.tasklocal_context task_name with
  | some c => (self, c)
  | none =>
      ({ self with
          tasklocal_context := self.tasklocal_context ++ [(task_name, Context.init)] },
       Context.init)

/-- Embeds `QueueContextFilter.set_level`: refuses a level change while the calling
task's context is open (an error is logged and the old level returned), otherwise
sets and returns the new level. -/
def QueueContextFilter.set_level (self : QueueContextFilter) (task_name : String)
    (log_level : Nat) : QueueContextFilter × Nat :=
  let s := self.get_context task_name
  if s.2.with_context then (s.1, s.1.log_level)
  else ({ s.1 with log_level := log_level }, log_level)

/-- One frame of a captured call stack (`traceback.FrameSummary`): file path, line
number, function name and source text; frames are equal for diffing purposes iff
all four fields agree. -/
structure FrameSummary where
  filename : String
  lineno : Nat
  name : String
  line : String
deriving DecidableEq

/-- Longest common initial segment of two stacks: frames are kept while they are
identical at the same index in both. -/
def commonStart : List FrameSummary → List FrameSummary → List FrameSummary
  | f :: fs, g :: gs => if f = g then f :: commonStart fs gs else []
  | _, _ => []

/-- Modelled from the spec: `recipe2txt.utils.traceback_utils.get_shared_frames` is
not among the sources; per the spec it computes the longest frame sequence shared
as an initial segment by every captured stack simultaneously (a frame is shared
only if identical at that index in every stack), embedded as the fold of the
pairwise longest common initial segment over all stacks. -/
def get_shared_frames (stackList : List (List FrameSummary)) : List FrameSummary :=
  match stackList with
  | [] => []
  | s :: ss => ss.foldl commonStart s

/-- Drops everything in `s` up to and including the first occurrence of `pat`;
`none` when `pat` does not occur. -/
def dropThroughFirst : List Char → List Char → Option (List Char)
  | [], _ => none
  | c :: rest, pat =>
      if pat.isPrefixOf (c :: rest) then some ((c :: rest).drop pat.length)
      else dropThroughFirst rest pat

/-- Modelled from the spec: path anonymization replaces everything up to and
including the anonymization root by the fixed marker "..." when the root occurs
in the path, and returns a path not containing the root unchanged. -/
def anonymize_path (root : String) (path : String) : String :=
  match dropThroughFirst path.data root.data with
  | none => path
  | some rest => String.mk ("...".data ++ rest)

/-- Modelled from the spec: rendering of a single stack frame (location line plus
source line), with the file path anonymized. -/
def format_frame (root : String) (f : FrameSummary) : String :=
  "  File \"" ++ anonymize_path root f.filename ++ "\", line " ++ toString f.lineno
    ++ ", in " ++ f.name ++ linesep ++ "    " ++ f.line ++ linesep

/-- Modelled from the spec: `recipe2txt.utils.traceback_utils.format_stacks` is not
among the sources; per the spec the first stack is printed in full, and every
later stack replaces the frames shared by all stacks (the supplied shared initial
segment) with the elision marker "..." followed by its frames strictly after the
shared part. -/
def format_stacks (tb_ex_list : List (List FrameSummary))
    (shared_frames : List FrameSummary) (root : String) : List (List String) :=
  match tb_ex_list with
  | [] => []
  | t :: rest =>
      (t.map (format_frame root)) ::
        rest.map fun tb =>
          ("..." ++ linesep) :: (tb.drop shared_frames.length).map (format_frame root)

/-- One captured failure (`ParsingError`): the source URL and the captured stack of
its `TracebackException`. -/
structure ParsingError where
  url : String
  traceback : List FrameSummary
deriving DecidableEq

/-- The nested `categorized_errors` registry: site → step → exception-name →
insertion-ordered parsing errors, embedded as insertion-ordered association
lists. -/
abbrev ErrorRegistry := List (String × List (String × List (String × List ParsingError)))

/-- Updates the value under `key` with `f` when present (first match), otherwise
appends `(key, fresh)` — the insert pattern of the nested `dict` updates in
`handle_parsing_error`. -/
def updateOrAppend {α : Type} (l : List (String × α)) (key : String) (f : α → α)
    (fresh : α) : List (String × α) :=
  match l with
  | [] => [(key, fresh)]
  | (k, v) :: rest =>
      if k = key then (k, f v) :: rest else (k, v) :: updateOrAppend rest key f fresh

/-- Models `str.startswith` on the underlying character lists. -/
def startsWith (s p : String) : Bool := p.data.isPrefixOf s.data

/-- Models `urllib.parse.urlparse(url).hostname` for the absolute http/https URLs
the tool handles: the lower-cased authority component, `none` when the URL has no
http(s) scheme or an empty authority. -/
def hostname (url : String) : Option String :=
  let net :=
    if startsWith url "http://" then some (String.mk (url.data.drop 7))
    else if startsWith url "https://" then some (String.mk (url.data.drop 8))
    else none
  match net with
  | none => none
  | some rest =>
      let h := String.mk ((rest.data.takeWhile fun ch => ch ≠ '/').map Char.toLower)
      if h = "" then none else some h

/-- Embeds `handle_parsing_error` (the failure categorizer): logs the failure, and
unless `save_error` is false appends it under (host, method, exception-name) —
falling back to the raw URL when no host can be parsed and defaulting the step to
"general parsing error". Returns the updated registry and the recorded entry. -/
def handle_parsing_error (registry : ErrorRegistry) (url : String)
    (exception_name : String) (tb : List FrameSummary) (method : Option String)
    (save_error : Bool := true) : ErrorRegistry × Option ParsingError :=
  if !save_error then (registry, none)
  else
    let parsing_error : ParsingError := { url := url, traceback := tb }
    let method := method.getD "general parsing error"
    let host := (hostname url).getD url
    (updateOrAppend registry host
      (fun methods => updateOrAppend methods method
        (fun excs => updateOrAppend excs exception_name
          (fun errs => errs ++ [parsing_error]) [parsing_error])
        [(exception_name, [parsing_error])])
      [(method, [(exception_name, [parsing_error])])],
     some parsing_error)

/-- Modelled from the spec: `recipe2txt.utils.markdown.unordered` is not among the
sources; one bulleted line per item, indented two spaces per level. -/
def unordered (items : List String) (level : Nat := 0) : List String :=
  items.map fun s => String.mk (List.replicate (2 * level) ' ') ++ "- " ++ s ++ linesep

/-- Modelled from the spec: inline code span. -/
def code (s : String) : String := "`" ++ s ++ "`"

/-- Modelled from the spec: italic text. -/
def italic (s : String) : String := "*" ++ s ++ "*"

/-- Modelled from the spec: bold text. -/
def bold (s : String) : String := "**" ++ s ++ "**"

/-- Modelled from the spec: fenced code block around preformatted lines. -/
def codeblock (items : List String) (language : String) : List String :=
  ("```" ++ language ++ linesep) :: items ++ [linesep ++ "```" ++ linesep]

/-- Models `version("recipe_scrapers")`, an environment-dependent constant. -/
def SCRAPER_VERSION : String := "14.55.0"

/-- The fixed pre-filing checklist header of every report (`pre_check_msg`). -/
def pre_check_msg : String :=
  linesep ++ "--- MESSAGE GENERATED BY recipe2txt ---" ++ linesep ++ linesep
    ++ "**Pre-filing checks**" ++ linesep ++ linesep
    ++ "- [ ] I have searched for open issues that report the same problem" ++ linesep
    ++ "- [ ] I have checked that the bug affects the latest version of the library"
    ++ linesep ++ linesep ++ "**Information**" ++ linesep ++ linesep

/-- Embeds one iteration of the innermost loop of `errors2str`, building the
report of one (site, step, kind) bucket; `host` is the current value of the
source's mutable `host` variable and the second component is its value after the
iteration (the source strips a leading "www." from it each time round). -/
def bucketReport (host : String) (method : String) (exception_name : String)
    (parsing_error_list : List ParsingError) : (String × String) × String :=
  let msg := pre_check_msg
  let host := if startsWith host "www." then String.mk (host.data.drop 4) else host
  let title := String.mk (host.data.takeWhile fun ch => ch ≠ '.') ++ ": " ++ method
      ++ " - " ++ exception_name ++ " (found by recipe2txt)"
  let urls := parsing_error_list.map (·.url)
  let triggered_by :=
    if method = "general parsing error" then "scrape_html()" else "." ++ method ++ "()"
  let infos := unordered ["host: " ++ code host,
      "recipe-scrapers version: " ++ code SCRAPER_VERSION,
      "exception: " ++ code exception_name,
      "triggered by calling: " ++ code triggered_by,
      "triggered on: "] 0 ++ unordered urls 1
  let tb_ex_list := parsing_error_list.map (·.traceback)
  let shared_frames := get_shared_frames tb_ex_list
  let formatted_stacks := format_stacks tb_ex_list shared_frames "recipe2txt"
  let dot_explanation :=
    if urls.length > 1 then
      italic ("\x27...\x27 indicates frames present in all traces"
        ++ "(but only shown in the first)") ++ linesep ++ linesep
    else ""
  let stack_traces := [bold "Stack Traces" ++ linesep ++ linesep, dot_explanation]
  let stack_traces := stack_traces ++
    ((parsing_error_list.zip formatted_stacks).map fun es =>
        ("URL: " ++ es.1.url ++ linesep ++ linesep) ::
          codeblock es.2 "python" ++ [linesep ++ linesep]).flatten
  let msg := msg ++ String.join infos ++ linesep ++ String.join stack_traces
  ((title, msg), host)

/-- Embeds `errors2str` (the report generator): iterates the categorized-error
registry in insertion order, producing one (title, body) report per
(site, step, kind) bucket, threading the source's mutable `host` local through
the two inner loops of each site entry. -/
def errors2str (registry : ErrorRegistry) : List (String × String) :=
  (registry.map fun hostEntry =>
    (((hostEntry.2.map fun methodEntry =>
          methodEntry.2.map fun excEntry =>
            (methodEntry.1, excEntry.1, excEntry.2)).flatten).foldl
        (fun acc leaf =>
          let r := bucketReport acc.2 leaf.1 leaf.2.1 leaf.2.2
          (acc.1 ++ [r.1], r.2))
        (([], hostEntry.1) : List (String × String) × String)).1).flatten

/-- The exception classes that can arise from an extraction step, as a closed
enumeration (`valueError` standing for an arbitrary further `Exception`
subclass). -/
inductive PyExc where
  | schemaOrgException
  | elementNotFoundInHtml
  | typeError
  | attributeError
  | keyError
  | notImplementedError
  | websiteNotImplementedError
  | noSchemaFoundInWildMode
  | keyboardInterrupt
  | systemExit
  | memoryError
  | valueError
deriving DecidableEq

/-- True when the class derives from Python's `Exception` (so `except Exception`
catches it); `KeyboardInterrupt` and `SystemExit` derive only from
`BaseException`. -/
def PyExc.isExceptionSubclass : PyExc → Bool
  | .keyboardInterrupt => false
  | .systemExit => false
  | _ => true

/-- The five exception classes of the first `except` clause of `_get_info`. -/
def KNOWN_GET_INFO_ERRORS : List PyExc :=
  [.schemaOrgException, .elementNotFoundInHtml, .typeError, .attributeError, .keyError]

/-- The exact types re-raised by the `type(e) in (...)` check of both guards. -/
def TERMINAL_ERRORS : List PyExc := [.keyboardInterrupt, .systemExit, .memoryError]

/-- Outcome of one guarded extraction attempt: whether the exception escapes the
function, whether it is logged, and whether it is recorded into
`categorized_errors` via `handle_parsing_error`. -/
structure ExcOutcome where
  propagated : Option PyExc
  logged : Bool
  recorded : Bool
deriving DecidableEq

/-- Embeds the exception handling of `_get_info` around `getattr(data, method)()`:
the first clause catches the five known parsing-error classes and both logs and
records them; `NotImplementedError` is only logged; the final `except Exception`
clause re-raises `KeyboardInterrupt`, `SystemExit` and `MemoryError` by exact
type (of these only `MemoryError` is an `Exception` that can reach the clause)
and logs everything else; exceptions outside `Exception` propagate uncaught. -/
def getInfoExcOutcome (e : PyExc) : ExcOutcome :=
  if e ∈ KNOWN_GET_INFO_ERRORS then
    { propagated := none, logged := true, recorded := true }
  else if e = .notImplementedError then
    { propagated := none, logged := true, recorded := false }
  else if e.isExceptionSubclass then
    if e ∈ TERMINAL_ERRORS then
      { propagated := some e, logged := false, recorded := false }
    else { propagated := none, logged := true, recorded := false }
  else { propagated := some e, logged := false, recorded := false }

/-- Embeds the exception handling of `html2parsed` around `scrape_html`: the two
unsupported-website errors are logged only; `AttributeError` and `TypeError` are
logged and recorded via `handle_parsing_error`; the final `except Exception`
clause re-raises `KeyboardInterrupt`, `SystemExit` and `MemoryError` by exact
type and logs everything else; exceptions outside `Exception` propagate
uncaught. -/
def html2parsedExcOutcome (e : PyExc) : ExcOutcome :=
  if e ∈ [PyExc.websiteNotImplementedError, PyExc.noSchemaFoundInWildMode] then
    { propagated := none, logged := true, recorded := false }
  else if e ∈ [PyExc.attributeError, PyExc.typeError] then
    { propagated := none, logged := true, recorded := true }
  else if e.isExceptionSubclass then
    if e ∈ TERMINAL_ERRORS then
      { propagated := some e, logged := false, recorded := false }
    else { propagated := none, logged := true, recorded := false }
  else { propagated := some e, logged := false, recorded := false }

/-- Counts the positions in the character list at whose tail `pat` begins. -/
def countOccsFrom : List Char → List Char → Nat
  | [], _ => 0
  | c :: rest, pat =>
      (if pat.isPrefixOf (c :: rest) then 1 else 0) + countOccsFrom rest pat

/-- Number of (possibly overlapping) occurrences of `pat` in `s`; zero for the
empty pattern. Used to state which URLs and stack lines a report body shows. -/
def countOccs (s pat : String) : Nat :=
  if pat.data.isEmpty then 0 else countOccsFrom s.data pat.data

/-- The record opening the context "Processing http://x.test" at info level. -/
def recOpenCtx : LogRecord :=
  { levelno := INFO, msg := "Processing %s", args := ["http://x.test"],
    is_context := some true }

/-- A first error-level record emitted inside the context. -/
def recFetchFailed : LogRecord := { levelno := ERROR, msg := "fetch failed" }

/-- A second error-level record emitted inside the same context. -/
def recFetchFailed2 : LogRecord := { levelno := ERROR, msg := "fetch failed again" }

/-- A context opened with deferred emission, as `set_context` leaves it for a
below-threshold opening record with `defer_emit` set. -/
def deferredCtx : Context :=
  { context_msg := "Processing %s", context_args := ["http://x.test"],
    with_context := true, defer_emit := true }

/-- Synthetic stack frames used as concrete inputs. -/
def frameMain : FrameSummary :=
  { filename := "re2txt.py", lineno := 10, name := "main", line := "run()" }

/-- Second shared synthetic frame. -/
def frameRun : FrameSummary :=
  { filename := "re2txt.py", lineno := 42, name := "run", line := "fetch()" }

/-- Divergent tail frame of the first synthetic stack. -/
def frameA : FrameSummary :=
  { filename := "a.py", lineno := 1, name := "fa", line := "la" }

/-- Divergent tail frame of the second synthetic stack. -/
def frameB : FrameSummary :=
  { filename := "b.py", lineno := 2, name := "fb", line := "lb" }

/-- Divergent tail frame of the third synthetic stack. -/
def frameC : FrameSummary :=
  { filename := "c.py", lineno := 3, name := "fc", line := "lc" }

/-- Stack frame of the fourth captured failure. -/
def frameD : FrameSummary :=
  { filename := "d.py", lineno := 4, name := "fd", line := "ld" }

/-- Registry with one bucket for site "www.a.com", used for the title-format
claim. -/
def registryC5 : ErrorRegistry :=
  (handle_parsing_error [] "http://www.a.com/r1" "TypeError" [frameMain]
    (some "ingredients")).1

/-- Registry with failures for site "a.com": step "ingredients", kind "TypeError"
(three occurrences with a shared two-frame stack start) and step "title", kind
"TypeError" (one occurrence). -/
def registryC6 : ErrorRegistry :=
  (handle_parsing_error
    ((handle_parsing_error
      ((handle_parsing_error
        ((handle_parsing_error [] "http://a.com/1" "TypeError"
            [frameMain, frameRun, frameA] (some "ingredients")).1)
        "http://a.com/2" "TypeError" [frameMain, frameRun, frameB]
        (some "ingredients")).1)
      "http://a.com/3" "TypeError" [frameMain, frameRun, frameC]
      (some "ingredients")).1)
    "http://a.com/4" "TypeError" [frameMain, frameRun, frameD] (some "title")).1

/-- A record annotated as in-context with an empty context message. -/
def recEmptyCtxMsg : LogRecord :=
  { levelno := ERROR, msg := "boom", context_msg := some "", with_context := true }

/-- States of one task's `Context` reachable through the pipeline: the freshly
constructed state, closed under `Context.process` (which subsumes opening a
context, observing a record and closing a context, depending on the record's
`is_context` attribute). -/
inductive ReachableContext : Context → Prop where
  | init : ReachableContext Context.init
  | step (c : Context) (r : LogRecord) (lvl : Nat) (h : Bool) :
      ReachableContext c → ReachableContext (c.process r lvl h).1

/-- Strengthened idle invariant used for the induction: when no context is open,
`triggered` is false, the deferred queue is empty, and deferral is off. -/
def IdleInv (c : Context) : Prop :=
  c.with_context = false →
    c.triggered = false ∧ c.deferred_records = [] ∧ c.defer_emit = false

lemma idleInv_init : IdleInv Context.init := fun _ => ⟨rfl, rfl, rfl⟩

lemma set_context_opens (c : Context) (r : LogRecord) (lvl : Nat) :
    ((c.set_context r lvl).1).with_context = true := by
  unfold Context.set_context Context.dispatch
  dsimp only
  split_ifs <;> rfl

lemma processRest_idleInv (self : Context) (flushed : List LogRecord)
    (record : LogRecord) (lvl : Nat) (hc : IdleInv self) :
    IdleInv (self.processRest flushed record lvl).1 := by
  unfold Context.processRest Context.dispatch
  dsimp only
  split_ifs <;> (try exact hc) <;>
    (intro hw; rcases hc hw with ⟨ht, hd, hde⟩; simp_all [IdleInv])

lemma idleInv_process (c : Context) (r : LogRecord) (lvl : Nat) (h : Bool)
    (hc : IdleInv c) : IdleInv (c.process r lvl h).1 := by
  unfold Context.process
  rcases hic : r.is_context with _ | b
  · exact processRest_idleInv c [] r lvl hc
  · cases b
    · exact processRest_idleInv (c.close_context h).1 (c.close_context h).2 r lvl
        idleInv_init
    · intro hw
      rw [set_context_opens] at hw
      exact absurd hw (by simp)

lemma reachable_idleInv (c : Context) (hc : ReachableContext c) : IdleInv c := by
  induction hc with
  | init => exact idleInv_init
  | step c r lvl h _ ih => exact idleInv_process c r lvl h ih

/-- Claim C7: in every reachable state of a unit-of-work's `Context` in which no
context is open (`with_context = false`), `triggered` is false and the deferred
queue is empty; reachability is closed under all operations of the state machine
(opening, record processing, closing — all routed through `Context.process`), so
each operation preserves the invariant. -/
theorem idle_state_invariant (c : Context) (hc : ReachableContext c)
    (hidle : c.with_context = false) :
    c.triggered = false ∧ c.deferred_records = [] :=
  ⟨(reachable_idleInv c hc hidle).1, (reachable_idleInv c hc hidle).2.1⟩

/-- Witness for `idle_state_invariant` at the initial state. -/
theorem idle_state_invariant_witness :
    Context.init.triggered = false ∧ Context.init.deferred_records = [] :=
  idle_state_invariant Context.init ReachableContext.init rfl

/-- Claim C8: closing a context twice in a row (with no intervening open) emits
nothing to the sink on the second close, and the second close leaves the state
exactly where the first close put it. -/
theorem close_context_idempotent (c : Context) (handler : Bool) :
    ((c.close_context handler).1.close_context handler).1 = (c.close_context handler).1 ∧
    ((c.close_context handler).1.close_context handler).2 = [] := by
  constructor <;> rfl

lemma processRest_deferred (self : Context) (flushed : List LogRecord)
    (r : LogRecord) (lvl : Nat) (hdef : self.defer_emit = true) :
    (self.processRest flushed r lvl).1 =
      { self with deferred_records := self.deferred_records ++ deferredOf self lvl [r] } ∧
    (self.processRest flushed r lvl).2.2.1 = false ∧
    (self.processRest flushed r lvl).2.2.2 = flushed := by
  obtain ⟨cm, ca, wc, tg, cid, de, dr⟩ := self
  unfold Context.processRest Context.dispatch deferredOf annotateFor
  dsimp only
  split_ifs <;> simp_all [List.filterMap_cons]

lemma process_none_deferred (c : Context) (r : LogRecord) (lvl : Nat) (h : Bool)
    (hic : r.is_context = none) (hdef : c.defer_emit = true) :
    (c.process r lvl h).1 =
      { c with deferred_records := c.deferred_records ++ deferredOf c lvl [r] } ∧
    (c.process r lvl h).2.2.1 = false ∧
    (c.process r lvl h).2.2.2 = [] := by
  unfold Context.process
  rw [hic]
  exact processRest_deferred c [] r lvl hdef

lemma deferredOf_queue (c : Context) (q : List LogRecord) (lvl : Nat)
    (rs : List LogRecord) :
    deferredOf { c with deferred_records := q } lvl rs = deferredOf c lvl rs := rfl

lemma deferredOf_cons (c : Context) (lvl : Nat) (r : LogRecord) (rs : List LogRecord) :
    deferredOf c lvl (r :: rs) = deferredOf c lvl [r] ++ deferredOf c lvl rs := by
  unfold deferredOf
  rw [List.filterMap_cons, List.filterMap_cons, List.filterMap_nil]
  split <;> simp

lemma processList_deferred (rs : List LogRecord) (c : Context) (lvl : Nat) (h : Bool)
    (hdef : c.defer_emit = true) (hrs : ∀ r ∈ rs, r.is_context = none) :
    (c.processList rs lvl h).1 =
      { c with deferred_records := c.deferred_records ++ deferredOf c lvl rs } ∧
    sinkOutput (c.processList rs lvl h).2 = [] := by
  induction rs generalizing c with
  | nil =>
      refine ⟨?_, rfl⟩
      show c = _
      simp [deferredOf]
  | cons r rs ih =>
      obtain ⟨h1, h2, h3⟩ := process_none_deferred c r lvl h (hrs r (by simp)) hdef
      have hdef1 : (c.process r lvl h).1.defer_emit = true := by rw [h1]; exact hdef
      obtain ⟨ih1, ih2⟩ := ih (c.process r lvl h).1 hdef1
        (fun x hx => hrs x (List.mem_cons_of_mem _ hx))
      constructor
      · show ((c.process r lvl h).1.processList rs lvl h).1 = _
        rw [ih1, h1]
        simp only [deferredOf_queue]
        rw [deferredOf_cons c lvl r rs]
        rw [List.append_assoc]
      · show sinkOutput (_ :: ((c.process r lvl h).1.processList rs lvl h).2) = []
        simp only [sinkOutput, List.map_cons, List.flatten_cons] at ih2 ⊢
        rw [h2, h3, ih2]
        rfl

/-- Claim C2: inside a context opened with deferred emission, no processed record
reaches the stream sink (neither emitted by the filter nor flushed); the queue
collects exactly the qualifying records, annotated, in original emission order;
closing the context emits precisely the queued records, in that order, directly
to the stream handler (no second pass through the dispatch filter), and resets
the state to empty. -/
theorem deferred_context_flush (c : Context) (rs : List LogRecord) (lvl : Nat)
    (h : Bool) (hdef : c.defer_emit = true) (hopen : c.with_context = true)
    (hrs : ∀ r ∈ rs, r.is_context = none) :
    sinkOutput (c.processList rs lvl h).2 = [] ∧
    (c.processList rs lvl h).1.deferred_records =
      c.deferred_records ++ deferredOf c lvl rs ∧
    ((c.processList rs lvl h).1.close_context true).2 =
      (c.processList rs lvl h).1.deferred_records ∧
    ((c.processList rs lvl h).1.close_context true).1 = Context.init := by
  obtain ⟨h1, h2⟩ := processList_deferred rs c lvl h hdef hrs
  refine ⟨h2, by rw [h1], ?_, rfl⟩
  rw [h1]
  unfold Context.close_context
  dsimp only
  by_cases hq : c.deferred_records ++ deferredOf c lvl rs = []
  · simp [hq]
  · simp [hopen, hq]

/-- Witness for `deferred_context_flush`: one error record inside the deferred
context "Processing http://x.test". -/
theorem deferred_context_flush_witness :
    sinkOutput (deferredCtx.processList [recFetchFailed] WARNING true).2 = [] ∧
    (deferredCtx.processList [recFetchFailed] WARNING true).1.deferred_records =
      deferredCtx.deferred_records ++ deferredOf deferredCtx WARNING [recFetchFailed] ∧
    ((deferredCtx.processList [recFetchFailed] WARNING true).1.close_context true).2 =
      (deferredCtx.processList [recFetchFailed] WARNING true).1.deferred_records ∧
    ((deferredCtx.processList [recFetchFailed] WARNING true).1.close_context true).1 =
      Context.init :=
  deferred_context_flush deferredCtx [recFetchFailed] WARNING true rfl rfl
    (by intro r hr; rw [List.mem_singleton.mp hr]; rfl)

/-- Claim C1 is contradicted by the code: after opening the non-deferred context
"Processing http://x.test" below the warning threshold, the first qualifying
record is emitted annotated with the full context message, but `Context.process`
leaves `triggered` false, so the second qualifying record is again annotated with
the full context message and again renders with the full
"While processing http://x.test:" prefix instead of the indented continuation
form. -/
theorem process_never_marks_triggered :
    ((Context.init.process recOpenCtx WARNING true).1.process recFetchFailed
        WARNING true).2.2.1 = true ∧
    ((Context.init.process recOpenCtx WARNING true).1.process recFetchFailed
        WARNING true).2.1.context_msg = some "Processing %s" ∧
    ((Context.init.process recOpenCtx WARNING true).1.process recFetchFailed
        WARNING true).1.triggered = false ∧
    (((Context.init.process recOpenCtx WARNING true).1.process recFetchFailed
        WARNING true).1.process recFetchFailed2 WARNING true).2.2.1 = true ∧
    (((Context.init.process recOpenCtx WARNING true).1.process recFetchFailed
        WARNING true).1.process recFetchFailed2 WARNING true).2.1.context_msg =
      some "Processing %s" ∧
    set_context ((((Context.init.process recOpenCtx WARNING true).1.process
        recFetchFailed WARNING true).1.process recFetchFailed2 WARNING true).2.1) =
      some ("While processing http://x.test:" ++ linesep ++ "\t") :=
  ⟨rfl, rfl, rfl, rfl, rfl, by decide⟩

lemma lowerFirst_isSome (m : String) (hm : m ≠ "") :
    (lowerFirst m).isSome = true := by
  unfold lowerFirst
  rcases m with ⟨data⟩
  cases data with
  | nil => exact absurd rfl hm
  | cons ch rest => rfl

lemma format_context_isSome (m : String) (args : List String) (hm : m ≠ "") :
    (format_context m args).isSome = true := by
  unfold format_context
  have h := lowerFirst_isSome m hm
  rcases hl : lowerFirst m with _ | v
  · rw [hl] at h
    exact absurd h (by simp)
  · rfl

/-- Claim C9: the renderer-side `set_context` is total on every record —
`format_context` (which indexes the first character of the message) is only
reached with a non-empty context message; a record annotated with an empty
context message renders with a plain tab prefix (or the empty prefix outside a
context), never with a "While ...:" prefix. -/
theorem renderer_total_on_empty_context (r : LogRecord) :
    (set_context r).isSome = true ∧
    (r.context_msg = some "" →
      set_context r = some (if r.with_context then "\t" else "")) := by
  constructor
  · by_cases hw : r.with_context
    · rcases hm : r.context_msg with _ | m
      · simp [set_context, hw, hm]
      · by_cases he : m = ""
        · simp [set_context, hw, hm, he]
        · simpa [set_context, hw, hm, he] using
            format_context_isSome m (r.context_args.getD []) he
    · simp [set_context, hw]
  · intro hm
    by_cases hw : r.with_context <;> simp [set_context, hw, hm]

/-- Witness for `renderer_total_on_empty_context` at a concrete in-context record
whose annotated context message is empty. -/
theorem renderer_total_on_empty_context_witness :
    (set_context recEmptyCtxMsg).isSome = true ∧
    set_context recEmptyCtxMsg = some (if recEmptyCtxMsg.with_context then "\t" else "") :=
  ⟨(renderer_total_on_empty_context recEmptyCtxMsg).1,
   (renderer_total_on_empty_context recEmptyCtxMsg).2 rfl⟩

/-- Claim C10 fails as stated: calling `set_level` with no context open from a
task that has no registry entry yet does change filter state beyond the
threshold — the task-local registry grows by a fresh entry. -/
theorem set_level_grows_registry :
    ((QueueContextFilter.mkFilter WARNING).set_level "worker-1" DEBUG).2 = DEBUG ∧
    ((QueueContextFilter.mkFilter WARNING).set_level "worker-1"
        DEBUG).1.tasklocal_context ≠
      (QueueContextFilter.mkFilter WARNING).tasklocal_context :=
  ⟨rfl, by decide⟩

/-- Claim C10 (amended): while the calling task's context is open (possible only
for an already-registered task), `set_level` changes nothing and returns the old
threshold; with no open context it sets and returns the new threshold, changing
no other filter state beyond lazily registering a fresh `Context` for a
previously unknown task (the registry is exactly unchanged or exactly extended by
that one fresh entry). -/
theorem set_level_spec (f : QueueContextFilter) (task : String) (lvl : Nat) :
    ((f.get_context task).2.with_context = true →
      f.set_level task lvl = (f, f.log_level)) ∧
    ((f.get_context task).2.with_context = false →
      (f.set_level task lvl).2 = lvl ∧
      (f.set_level task lvl).1.log_level = lvl ∧
      ((f.set_level task lvl).1.tasklocal_context = f.tasklocal_context ∨
        (f.set_level task lvl).1.tasklocal_context =
          f.tasklocal_context ++ [(task, Context.init)])) := by
  unfold QueueContextFilter.set_level QueueContextFilter.get_context
  rcases hl : lookupContext f.tasklocal_context task with _ | c
  · refine ⟨fun hw => absurd hw (by simp [Context.init]), fun _ => ⟨rfl, rfl, Or.inr rfl⟩⟩
  · constructor
    · intro hw
      dsimp only at hw ⊢
      rw [if_pos hw]
    · intro hw
      dsimp only at hw ⊢
      rw [if_neg (by simp [hw])]
      exact ⟨rfl, rfl, Or.inl rfl⟩

/-- Witness for `set_level_spec` at the default filter and the default (already
registered, closed) task identity. -/
theorem set_level_spec_witness :
    ((QueueContextFilter.mkFilter WARNING).set_level DEFAULT_CONTEXT DEBUG).2 = DEBUG ∧
    ((QueueContextFilter.mkFilter WARNING).set_level DEFAULT_CONTEXT
        DEBUG).1.log_level = DEBUG ∧
    (((QueueContextFilter.mkFilter WARNING).set_level DEFAULT_CONTEXT
          DEBUG).1.tasklocal_context =
        (QueueContextFilter.mkFilter WARNING).tasklocal_context ∨
      ((QueueContextFilter.mkFilter WARNING).set_level DEFAULT_CONTEXT
          DEBUG).1.tasklocal_context =
        (QueueContextFilter.mkFilter WARNING).tasklocal_context ++
          [(DEFAULT_CONTEXT, Context.init)]) :=
  (set_level_spec (QueueContextFilter.mkFilter WARNING) DEFAULT_CONTEXT DEBUG).2 rfl

/-- Claim C4 fails as stated: a `ValueError` raised by an extraction step is
caught and logged by `_get_info` but is not recorded into the categorized
failure buckets (`handle_parsing_error` is not called for it). -/
theorem get_info_uncategorized_exception :
    getInfoExcOutcome PyExc.valueError =
      { propagated := none, logged := true, recorded := false } := rfl

/-- Claim C4 (amended): `KeyboardInterrupt`, `SystemExit` and `MemoryError`
always propagate uncaught out of `_get_info` and `html2parsed`; every other
exception raised by an extraction step is caught and logged and never aborts the
run, and is additionally recorded into the categorized failure buckets exactly
for the known parsing-error classes (the five-class clause of `_get_info`;
`AttributeError`/`TypeError` in `html2parsed`). -/
theorem extraction_exception_policy (e : PyExc) :
    (e ∈ TERMINAL_ERRORS →
      (getInfoExcOutcome e).propagated = some e ∧
      (html2parsedExcOutcome e).propagated = some e) ∧
    (e ∉ TERMINAL_ERRORS →
      (getInfoExcOutcome e).propagated = none ∧
      (getInfoExcOutcome e).logged = true ∧
      ((getInfoExcOutcome e).recorded = true ↔ e ∈ KNOWN_GET_INFO_ERRORS) ∧
      (html2parsedExcOutcome e).propagated = none ∧
      (html2parsedExcOutcome e).logged = true ∧
      ((html2parsedExcOutcome e).recorded = true ↔
        e ∈ [PyExc.attributeError, PyExc.typeError])) := by
  cases e <;> exact ⟨fun h => by revert h; decide, fun h => by revert h; decide⟩

/-- Witness for `extraction_exception_policy` at `MemoryError` (terminal) and
`ValueError` (caught, logged, unrecorded). -/
theorem extraction_exception_policy_witness :
    ((getInfoExcOutcome PyExc.memoryError).propagated = some PyExc.memoryError ∧
      (html2parsedExcOutcome PyExc.memoryError).propagated =
        some PyExc.memoryError) ∧
    ((getInfoExcOutcome PyExc.valueError).propagated = none ∧
      (getInfoExcOutcome PyExc.valueError).logged = true ∧
      ((getInfoExcOutcome PyExc.valueError).recorded = true ↔
        PyExc.valueError ∈ KNOWN_GET_INFO_ERRORS) ∧
      (html2parsedExcOutcome PyExc.valueError).propagated = none ∧
      (html2parsedExcOutcome PyExc.valueError).logged = true ∧
      ((html2parsedExcOutcome PyExc.valueError).recorded = true ↔
        PyExc.valueError ∈ [PyExc.attributeError, PyExc.typeError])) :=
  ⟨(extraction_exception_policy PyExc.memoryError).1 (by decide),
   (extraction_exception_policy PyExc.valueError).2 (by decide)⟩

/-- Claim C5 fails as stated: for the bucket of site "www.a.com"
(site-without-www "a.com", step "ingredients", kind "TypeError") the generated
title is "a: ingredients - TypeError (found by recipe2txt)", not
"a.com: ingredients - TypeError (found by recipe2txt)". -/
theorem errors2str_title_truncates_site :
    (errors2str registryC5).map Prod.fst =
      ["a: ingredients - TypeError (found by recipe2txt)"] ∧
    (errors2str registryC5).map Prod.fst ≠
      ["a.com: ingredients - TypeError (found by recipe2txt)"] :=
  ⟨rfl, by decide⟩

/-- Claim C5 (amended): for every bucket, the report title is
"<label>: <step> - <kind> (found by recipe2txt)", where `<label>` is the bucket's
origin site stripped of one leading "www." and then truncated at its first dot
(only the first dot-separated label of the site is kept). -/
theorem errors2str_title_format (host method excName : String)
    (pes : List ParsingError) :
    (errors2str [(host, [(method, [(excName, pes)])])]).map Prod.fst =
      [String.mk ((if startsWith host "www." then String.mk (host.data.drop 4)
            else host).data.takeWhile fun ch => ch ≠ '.') ++ ": " ++ method
        ++ " - " ++ excName ++ " (found by recipe2txt)"] := by
  rfl

lemma commonStart_append (s t1 t2 : List FrameSummary) :
    commonStart (s ++ t1) (s ++ t2) = s ++ commonStart t1 t2 := by
  induction s with
  | nil => rfl
  | cons f fs ih => simp [commonStart, ih]

lemma commonStart_head (a b : List FrameSummary) (f : FrameSummary)
    (h : (commonStart a b).head? = some f) :
    a.head? = some f ∧ b.head? = some f := by
  cases a with
  | nil => simp [commonStart] at h
  | cons x xs =>
      cases b with
      | nil => simp [commonStart] at h
      | cons y ys =>
          by_cases hxy : x = y
          · subst hxy
            simp only [commonStart, eq_self_iff_true, if_true, List.head?_cons,
              Option.some_inj] at h
            subst h
            exact ⟨rfl, rfl⟩
          · simp [commonStart, hxy] at h

lemma foldl_commonStart_head (ts : List (List FrameSummary))
    (acc : List FrameSummary) (f : FrameSummary)
    (h : (ts.foldl commonStart acc).head? = some f) :
    acc.head? = some f ∧ ∀ t ∈ ts, t.head? = some f := by
  induction ts generalizing acc with
  | nil => exact ⟨h, by simp⟩
  | cons t ts ih =>
      obtain ⟨h1, h2⟩ := ih (commonStart acc t) h
      obtain ⟨ha, ht⟩ := commonStart_head acc t f h1
      refine ⟨ha, ?_⟩
      intro u hu
      rcases List.mem_cons.mp hu with h | h
      · rw [h]; exact ht
      · exact h2 u h

lemma commonStart_length_left (a : List FrameSummary) :
    ∀ b, (commonStart a b).length ≤ a.length := by
  induction a with
  | nil => intro b; simp [commonStart]
  | cons x xs ih =>
      intro b
      cases b with
      | nil => simp [commonStart]
      | cons y ys =>
          by_cases hxy : x = y
          · simp only [commonStart, if_pos hxy, List.length_cons]
            exact Nat.succ_le_succ (ih ys)
          · simp [commonStart, hxy]

lemma commonStart_length_right (a : List FrameSummary) :
    ∀ b, (commonStart a b).length ≤ b.length := by
  induction a with
  | nil => intro b; simp [commonStart]
  | cons x xs ih =>
      intro b
      cases b with
      | nil => simp [commonStart]
      | cons y ys =>
          by_cases hxy : x = y
          · simp only [commonStart, if_pos hxy, List.length_cons]
            exact Nat.succ_le_succ (ih ys)
          · simp [commonStart, hxy]

lemma foldl_commonStart_length (ts : List (List FrameSummary))
    (acc : List FrameSummary) :
    (ts.foldl commonStart acc).length ≤ acc.length ∧
    ∀ t ∈ ts, (ts.foldl commonStart acc).length ≤ t.length := by
  induction ts generalizing acc with
  | nil => exact ⟨le_refl _, by simp⟩
  | cons t ts ih =>
      obtain ⟨h1, h2⟩ := ih (commonStart acc t)
      refine ⟨h1.trans (commonStart_length_left acc t), ?_⟩
      intro u hu
      rcases List.mem_cons.mp hu with h | h
      · rw [h]; exact h1.trans (commonStart_length_right acc t)
      · exact h2 u h

lemma foldl_commonStart_map (shared : List FrameSummary)
    (ts : List (List FrameSummary)) :
    ∀ acc, ((ts.map fun t => shared ++ t).foldl commonStart (shared ++ acc)) =
      shared ++ ts.foldl commonStart acc := by
  induction ts with
  | nil => intro acc; rfl
  | cons t ts ih =>
      intro acc
      simp only [List.map_cons, List.foldl_cons, commonStart_append]
      exact ih (commonStart acc t)

/-- Claim C3: for every collection of N ≥ 2 stacks sharing the initial frames
`shared` and then diverging (no single frame continues the common part in every
stack), `get_shared_frames` returns exactly `shared` and no more; moreover the
computed shared part never exceeds any input stack, so a zero-frame stack is a
legal input whose presence yields the empty result without any out-of-range
access. -/
theorem get_shared_frames_spec (shared : List FrameSummary)
    (tails : List (List FrameSummary)) (h2 : 2 ≤ tails.length)
    (hdiv : ¬ ∃ f, ∀ t ∈ tails, t.head? = some f) :
    get_shared_frames (tails.map fun t => shared ++ t) = shared ∧
    (∀ (stackList : List (List FrameSummary)) (s : List FrameSummary),
      s ∈ stackList → (get_shared_frames stackList).length ≤ s.length) ∧
    (∀ stackList : List (List FrameSummary), [] ∈ stackList →
      get_shared_frames stackList = []) := by
  have hlen : ∀ (stackList : List (List FrameSummary)) (s : List FrameSummary),
      s ∈ stackList → (get_shared_frames stackList).length ≤ s.length := by
    intro sl s hs
    cases sl with
    | nil => simp at hs
    | cons s0 ss =>
        obtain ⟨l1, l2⟩ := foldl_commonStart_length ss s0
        rcases List.mem_cons.mp hs with h | h
        · rw [h]; exact l1
        · exact l2 s h
  refine ⟨?_, hlen, ?_⟩
  · cases tails with
    | nil => simp at h2
    | cons t ts =>
        show ((ts.map fun t => shared ++ t).foldl commonStart (shared ++ t)) = shared
        rw [foldl_commonStart_map]
        have hnil : ts.foldl commonStart t = [] := by
          by_contra hne
          obtain ⟨f, hf⟩ : ∃ f, (ts.foldl commonStart t).head? = some f := by
            cases hh : ts.foldl commonStart t with
            | nil => exact absurd hh hne
            | cons x xs => exact ⟨x, by simp [hh]⟩
          obtain ⟨hhd, htl⟩ := foldl_commonStart_head ts t f hf
          refine hdiv ⟨f, ?_⟩
          intro u hu
          rcases List.mem_cons.mp hu with h | h
          · rw [h]; exact hhd
          · exact htl u h
        rw [hnil, List.append_nil]
  · intro sl hsl
    have h0 : (get_shared_frames sl).length ≤ 0 := by simpa using hlen sl [] hsl
    exact List.length_eq_zero.mp (Nat.le_zero.mp h0)

/-- Witness for `get_shared_frames_spec`: two stacks sharing two frames and then
diverging. -/
theorem get_shared_frames_spec_witness :
    2 ≤ ([[frameA], [frameB]] : List (List FrameSummary)).length ∧
    get_shared_frames
        (([[frameA], [frameB]] : List (List FrameSummary)).map
          fun t => [frameMain, frameRun] ++ t) =
      [frameMain, frameRun] := by
  refine ⟨by decide,
    (get_shared_frames_spec [frameMain, frameRun] [[frameA], [frameB]]
      (by decide) ?_).1⟩
  rintro ⟨f, hf⟩
  have h1 : frameA = f := by simpa using hf [frameA] (by simp)
  have h2 : frameB = f := by simpa using hf [frameB] (by simp)
  exact absurd (h1.trans h2.symm) (by decide)

set_option maxRecDepth 100000

set_option maxHeartbeats 3000000 in
/-- Claim C6: with failures recorded for site "a.com", step "ingredients", kind
"TypeError" (three occurrences) and site "a.com", step "title", kind "TypeError"
(one occurrence), `errors2str` returns exactly 2 reports; each report body lists
exactly the URLs of its own bucket (each of its own URLs twice — in the URL list
and above its stack — and no foreign URL); and in the three-occurrence report the
stack-frame prefix shared by all 3 occurrences is printed once (each shared frame
appears exactly once) and is replaced by the "..." elision marker in the other
two stacks, which still show their own divergent frames. -/
theorem errors2str_bucketing :
    (errors2str registryC6).length = 2 ∧
    countOccs ((errors2str registryC6).getD 0 ("", "")).2 "http://a.com/1" = 2 ∧
    countOccs ((errors2str registryC6).getD 0 ("", "")).2 "http://a.com/2" = 2 ∧
    countOccs ((errors2str registryC6).getD 0 ("", "")).2 "http://a.com/3" = 2 ∧
    countOccs ((errors2str registryC6).getD 0 ("", "")).2 "http://a.com/4" = 0 ∧
    countOccs ((errors2str registryC6).getD 1 ("", "")).2 "http://a.com/4" = 2 ∧
    countOccs ((errors2str registryC6).getD 1 ("", "")).2 "http://a.com/1" = 0 ∧
    countOccs ((errors2str registryC6).getD 1 ("", "")).2 "http://a.com/2" = 0 ∧
    countOccs ((errors2str registryC6).getD 1 ("", "")).2 "http://a.com/3" = 0 ∧
    countOccs ((errors2str registryC6).getD 0 ("", "")).2
      (format_frame "recipe2txt" frameMain) = 1 ∧
    countOccs ((errors2str registryC6).getD 0 ("", "")).2
      (format_frame "recipe2txt" frameRun) = 1 ∧
    countOccs ((errors2str registryC6).getD 0 ("", "")).2 ("..." ++ linesep) = 2 ∧
    countOccs ((errors2str registryC6).getD 0 ("", "")).2
      (format_frame "recipe2txt" frameB) = 1 ∧
    countOccs ((errors2str registryC6).getD 0 ("", "")).2
      (format_frame "recipe2txt" frameC) = 1 := by
  exact ⟨by decide, by decide, by decide, by decide, by decide, by decide, by decide,
    by decide, by decide, by decide, by decide, by decide, by decide, by decide⟩

end Recipe2txt
